import Mathlib

/-!
Verification of the release-hub self-update client.

Shallow embedding of the updater core (asset classification and selection,
version comparison, update check, streaming download, Windows installer
staging/relaunch, macOS atomic swap and relaunch) translated from the Rust
sources in `src/`: `utils.rs`, `github.rs`, `builder.rs`, `windows.rs`,
`macos.rs`.  External collaborators (the HTTP transport, the OS filesystem,
the elevated-execution primitives) appear as explicit oracle parameters so
that each code path of the source is reachable in the model.
-/

/-- Supported operating systems (`utils.rs`, enum `OS`). -/
inductive OS where
  | Macos
  | Windows
deriving DecidableEq, Repr

/-- Supported CPU architectures (`utils.rs`, enum `Arch`). -/
inductive Arch where
  | X86_64
  | Arm64
deriving DecidableEq, Repr

/-- Detected local system information (`utils.rs`, struct `SystemInfo`).
`SystemInfo::current()` is a compile-target constant; the model passes the
value explicitly. -/
structure SystemInfo where
  os : OS
  arch : Arch
deriving DecidableEq, Repr

/-- Bundle types supported by the installer logic (`utils.rs`, enum
`BundleType`). -/
inductive BundleType where
  | MacOSAppZip
  | MacOSDMG
  | WindowsMSI
  | WindowsSetUp
deriving DecidableEq, Repr

/-- One dot-separated pre-release identifier of a semantic version, numeric
or alphanumeric (models `semver::Prerelease`). -/
inductive PreIdent where
  | num (n : Nat)
  | alpha (s : String)
deriving DecidableEq, Repr

/-- Semantic version as used by the `semver` crate: major/minor/patch plus a
(possibly empty) pre-release identifier list; build metadata is ignored by
the ordering and omitted. -/
structure Version where
  major : Nat
  minor : Nat
  patch : Nat
  pre : List PreIdent
deriving DecidableEq, Repr

/-- SemVer precedence on single pre-release identifiers: numeric identifiers
compare numerically and are lower than alphanumeric ones; alphanumeric ones
compare lexically. -/
def cmpPreIdent : PreIdent → PreIdent → Ordering
  | .num a, .num b => compare a b
  | .num _, .alpha _ => .lt
  | .alpha _, .num _ => .gt
  | .alpha a, .alpha b =>
    if a < b then .lt else if b < a then .gt else .eq

/-- Lexicographic comparison of two nonempty-or-empty identifier lists where
a strict prefix is smaller. -/
def cmpPreList : List PreIdent → List PreIdent → Ordering
  | [], [] => .eq
  | [], _ :: _ => .lt
  | _ :: _, [] => .gt
  | a :: as_, b :: bs =>
    match cmpPreIdent a b with
    | .eq => cmpPreList as_ bs
    | o => o

/-- SemVer pre-release comparison: a version without pre-release identifiers
has higher precedence than any pre-release of the same triple. -/
def cmpPre : List PreIdent → List PreIdent → Ordering
  | [], [] => .eq
  | [], _ :: _ => .gt
  | _ :: _, [] => .lt
  | a :: as_, b :: bs => cmpPreList (a :: as_) (b :: bs)

/-- Total order on semantic versions (models `Ord for semver::Version`). -/
def compareVersion (a b : Version) : Ordering :=
  (compare a.major b.major).then
    ((compare a.minor b.minor).then
      ((compare a.patch b.patch).then (cmpPre a.pre b.pre)))

/-- `a > b` on semantic versions, as used by `Updater::check`. -/
def versionGt (a b : Version) : Bool :=
  compareVersion a b == Ordering.gt

/-- I/O error kinds the updater branches on (`std::io::ErrorKind`). -/
inductive IoErrorKind where
  | permissionDenied
  | notFound
  | other
deriving DecidableEq, Repr

/-- Updater error taxonomy (`error.rs`, enum `Error`); variants not reachable
from the modelled operations are omitted. -/
inductive Error where
  | Io (k : IoErrorKind)
  | UnsupportedArch
  | UnsupportedOs
  | AssetNotFound
  | FailedToDetermineExtractPath
  | TargetNotFound (s : String)
  | Network (s : String)
  | TempDirNotFound
  | InvalidUpdaterFormat
  | InsufficientPrivileges
  | FileInUse
  | InstallerExecutionFailed (code : Int)
  | UserCancelledElevation
deriving DecidableEq, Repr

/-- A single downloadable artifact from a GitHub release (`github.rs`,
struct `GitHubAsset`); URLs are kept as strings. -/
structure GitHubAsset where
  name : String
  os : OS
  arch : Arch
  browser_download_url : String
  size : Nat
  bundle_type : BundleType
deriving DecidableEq, Repr

/-- Simplified GitHub release information used by the updater (`github.rs`,
struct `GitHubRelease`). -/
structure GitHubRelease where
  version : Version
  name : Option String
  note : Option String
  published_at : Option String
  assets : List GitHubAsset
deriving DecidableEq, Repr

/-- Raw asset as delivered by the release source (`octocrab`'s
`models::repos::Asset`): the fields `get_assets` reads. -/
structure RawAsset where
  name : String
  browser_download_url : String
  size : Nat
deriving DecidableEq, Repr

/-- `str::to_lowercase` (asset names are ASCII, where Unicode and ASCII
lowercasing agree). -/
def lowerStr (s : String) : String :=
  String.mk (s.data.map Char.toLower)

/-- `needle` occurs as a contiguous infix of `hay`. -/
def listInfix (needle : List Char) : List Char → Bool
  | [] => needle.isEmpty
  | a :: rest => needle.isPrefixOf (a :: rest) || listInfix needle rest

/-- `str::contains` on lowercased names. -/
def containsSub (hay needle : String) : Bool :=
  listInfix needle.data hay.data

/-- `str::ends_with`. -/
def endsWithSub (hay needle : String) : Bool :=
  needle.data.isSuffixOf hay.data

/-- Classify one raw asset by name (`github.rs`, the closure inside
`get_assets`, lines 134-169): lowercase the name, then match OS tokens,
architecture tokens and suffix-based bundle-kind tokens, failing with
`TargetNotFound` when any of the three finds no match. -/
def classifyAsset (asset : RawAsset) : Except Error GitHubAsset :=
  let name := lowerStr asset.name
  if containsSub name "macos" || containsSub name "darwin" || containsSub name "osx" then
    classifyArch asset name OS.Macos
  else if containsSub name "windows" || containsSub name "win" then
    classifyArch asset name OS.Windows
  else
    .error (.TargetNotFound "macos or windows")
where
  classifyArch (asset : RawAsset) (name : String) (os : OS) : Except Error GitHubAsset :=
    if containsSub name "x86_64" || containsSub name "amd64" then
      classifyBundle asset name os Arch.X86_64
    else if containsSub name "aarch64" || containsSub name "arm64" then
      classifyBundle asset name os Arch.Arm64
    else
      .error (.TargetNotFound "x86_64 or amd64")
  classifyBundle (asset : RawAsset) (name : String) (os : OS) (arch : Arch) :
      Except Error GitHubAsset :=
    if endsWithSub name ".dmg" then
      .ok (mk asset name os arch BundleType.MacOSDMG)
    else if endsWithSub name ".app.zip" then
      .ok (mk asset name os arch BundleType.MacOSAppZip)
    else if endsWithSub name ".msi" then
      .ok (mk asset name os arch BundleType.WindowsMSI)
    else if endsWithSub name ".exe" then
      .ok (mk asset name os arch BundleType.WindowsSetUp)
    else
      .error (.TargetNotFound "os-arch")
  mk (asset : RawAsset) (name : String) (os : OS) (arch : Arch) (b : BundleType) :
      GitHubAsset :=
    { name := name
      browser_download_url := asset.browser_download_url
      size := asset.size
      os := os
      arch := arch
      bundle_type := b }

/-- Eager classification of a whole asset list (`github.rs`, `get_assets`,
lines 131-171): the first classification failure aborts the whole release. -/
def get_assets : List RawAsset → Except Error (List GitHubAsset)
  | [] => .ok []
  | a :: rest => do
    let g ← classifyAsset a
    let gs ← get_assets rest
    .ok (g :: gs)

/-- The bundle kind `find_proper_asset` requires on each platform
(`github.rs`, lines 97-120: `WindowsSetUp` under the windows cfg,
`MacOSAppZip` under the macos cfg). -/
def requiredBundleType : OS → BundleType
  | .Windows => .WindowsSetUp
  | .Macos => .MacOSAppZip

/-- The predicate of the `find` closure in `find_proper_asset`. -/
def assetMatches (sys : SystemInfo) (a : GitHubAsset) : Bool :=
  a.os == sys.os && a.arch == sys.arch && a.bundle_type == requiredBundleType sys.os

/-- `GitHubRelease::find_proper_asset` (`github.rs`, lines 94-123): first
asset in list order matching OS, architecture and the platform's required
bundle kind, else `AssetNotFound`.  The `SystemInfo` obtained from
`SystemInfo::current()` is passed explicitly. -/
def GitHubRelease.find_proper_asset (r : GitHubRelease) (sys : SystemInfo) :
    Except Error GitHubAsset :=
  match r.assets.find? (fun a => assetMatches sys a) with
  | some a => .ok a
  | none => .error .AssetNotFound

/-- Minimal GitHub API client configured for a single repository
(`github.rs`, struct `GitHubClient`); the `octocrab` handle has no
observable state. -/
structure GitHubClient where
  owner : String
  repo : String
deriving DecidableEq, Repr

/-- Updater instance (`builder.rs`, struct `Updater`); durations are
milliseconds, URLs and OS strings are plain strings. -/
structure Updater where
  app_name : String
  current_version : Version
  proxy : Option String
  github_client : GitHubClient
  headers : List (String × String)
  extract_path : String
  timeout : Option Nat
  installer_args : List String
  current_exe_args : List String
  latest_release : Option GitHubRelease
  proper_asset : Option GitHubAsset
deriving DecidableEq, Repr

/-- `Updater::check` (`builder.rs`, lines 219-231) with the network fetch
factored out: `latest` is the release `latest_release()` returned.  If its
version is strictly greater than the current one, resolve the asset and
return a clone of the receiver with the two resolved fields set; otherwise
report no update (`none`).  The receiver is taken immutably and returned
data is built from a copy, mirroring `..self.clone()`. -/
def Updater.check (u : Updater) (sys : SystemInfo) (latest : GitHubRelease) :
    Except Error (Option Updater) :=
  if versionGt latest.version u.current_version then
    match latest.find_proper_asset sys with
    | .error e => .error e
    | .ok asset =>
      .ok (some { u with latest_release := some latest, proper_asset := some asset })
  else
    .ok none

/-- One HTTP response as the transport delivers it: a status code and the
ordered sequence of body chunks (bytes as naturals). -/
structure HttpResponse where
  status : Nat
  chunks : List (List Nat)
deriving DecidableEq, Repr

/-- `reqwest::StatusCode::is_success`: the 2xx range. -/
def statusIsSuccess (s : Nat) : Bool :=
  decide (200 ≤ s ∧ s < 300)

/-- Header preparation in `Updater::download` (`builder.rs`, lines 261-264):
inject a default binary accept header when the caller set none. -/
def downloadHeaders (headers : List (String × String)) : List (String × String) :=
  if headers.any (fun h => h.1 == "accept") then headers
  else headers ++ [("accept", "application/octet-stream")]

/-- The streaming loop of `Updater::download` (`builder.rs`, lines 296-303):
left-to-right over the chunk stream, first report the chunk's length to the
progress callback, then append the chunk to the buffer.  Returns the final
buffer together with the ordered trace of `on_chunk` arguments. -/
def downloadLoop (chunks : List (List Nat)) : List Nat × List Nat :=
  chunks.foldl (fun acc c => (acc.1 ++ c, acc.2 ++ [c.length])) ([], [])

deriving instance DecidableEq for Except

/-- Observable outcome of one `download` call: the returned value, whether a
network request was actually issued, and the `on_chunk` invocation trace. -/
structure DownloadOutcome where
  result : Except Error (List Nat)
  requested : Bool
  chunkCalls : List Nat
deriving DecidableEq, Repr

/-- `Updater::download` (`builder.rs`, lines 255-305) with the transport
factored out as the response `resp`.  The client/proxy construction from the
pre-validated configuration is modelled as infallible; the asset lookup
(`self.proper_asset.clone().ok_or(Error::AssetNotFound)?`) happens before the
request is sent; a non-success status is rejected with a `Network` error
carrying the status; otherwise the chunk stream is folded into a buffer with
one `on_chunk` call per chunk.  The receiver is taken immutably. -/
def Updater.download (u : Updater) (resp : HttpResponse) : DownloadOutcome :=
  match u.proper_asset with
  | none => { result := .error .AssetNotFound, requested := false, chunkCalls := [] }
  | some _ =>
    if !statusIsSuccess resp.status then
      { result := .error (.Network
          ("Download request failed with status: " ++ toString resp.status))
        requested := true
        chunkCalls := [] }
    else
      let r := downloadLoop resp.chunks
      { result := .ok r.1, requested := true, chunkCalls := r.2 }

/-- `write_to_temp` verification (`windows.rs`, lines 133-165) with the disk
outcome of the write factored out: `disk` is the staged file's on-disk
content after `write_all`/`flush` (`none` when the file does not exist, e.g.
was removed; a short write yields a shorter content).  The source checks
`!temp_path.exists() || metadata.len() != bytes.len()` and fails with
`InvalidUpdaterFormat`; on success it returns the staged content. -/
def write_to_temp (bytes : List Nat) (disk : Option (List Nat)) :
    Except Error (List Nat) :=
  match disk with
  | none => .error .InvalidUpdaterFormat
  | some w =>
    if w.length ≠ bytes.length then .error .InvalidUpdaterFormat
    else .ok w

namespace Windows

/-- The two process-wide handoff cells of `windows.rs` (lines 24-25):
`UPDATER_FILE` (the staged installer path, write-once) and
`TEMP_FILE_KEEPER` (the mutex-guarded slot holding the lifetime-owning
`TempPath`, modelled as an abstract handle id). -/
structure Slots where
  updater_file : Option String
  temp_file_keeper : Option Nat
deriving DecidableEq, Repr

/-- How one call to `relaunch_inner` ends: either the process terminates
with an exit code, or control returns to the caller with an error. -/
inductive RelaunchResult where
  | exited (code : Nat)
  | err (e : Error)
deriving DecidableEq, Repr

/-- `Updater::relaunch_inner` (`windows.rs`, lines 47-88).  `existing` lists
the paths present on disk; `shellResult` is the numeric result of
`ShellExecuteW` with the `runas` verb.  Early validation: a missing
`UPDATER_FILE` or a staged file absent from disk returns
`InvalidUpdaterFormat` (without touching the keeper slot).  A result of at
most 32 clears the keeper and maps the code to a typed error; a result above
32 clears the keeper, sleeps briefly and exits the process with code 0. -/
def relaunch_inner (s : Slots) (existing : List String) (shellResult : Int) :
    RelaunchResult × Slots :=
  match s.updater_file with
  | none => (.err .InvalidUpdaterFormat, s)
  | some f =>
    if !existing.contains f then (.err .InvalidUpdaterFormat, s)
    else
      let result := shellResult
      if result ≤ 32 then
        let cleared := { s with temp_file_keeper := none }
        if result = 2 then (.err .InvalidUpdaterFormat, cleared)
        else if result = 5 then (.err .InsufficientPrivileges, cleared)
        else if result = 32 then (.err .FileInUse, cleared)
        else if result = 1223 then (.err .UserCancelledElevation, cleared)
        else (.err (.InstallerExecutionFailed result), cleared)
      else
        (.exited 0, { s with temp_file_keeper := none })

end Windows

namespace MacOS

/-- Abstract filesystem: a finite map from absolute path strings to abstract
content identifiers (a directory tree such as an `.app` bundle is one
opaque content value, which is what the swap's `rename` calls move
wholesale). -/
abbrev FS := List (String × Nat)

/-- Content stored at a path, if any. -/
def fsLookup (fs : FS) (p : String) : Option Nat :=
  (fs.find? (fun e => e.1 == p)).map (fun e => e.2)

/-- `Path::exists`. -/
def fsHas (fs : FS) (p : String) : Bool :=
  (fsLookup fs p).isSome

/-- Remove a path (models `remove_dir_all` on one tracked entry). -/
def fsRemove (fs : FS) (p : String) : FS :=
  fs.filter (fun e => e.1 != p)

/-- `std::fs::rename`: move `src` to `dst`, replacing `dst`; fails (`none`)
when `src` is missing. -/
def fsRename (fs : FS) (src dst : String) : Option FS :=
  match fsLookup fs src with
  | none => none
  | some c => some (fsRemove (fsRemove fs src) dst ++ [(dst, c)])

/-- Dropping a `tempfile::TempDir` deletes the directory and everything
under it (best effort). -/
def fsDropDir (fs : FS) (dir : String) : FS :=
  fs.filter (fun e => !((dir ++ "/").data.isPrefixOf e.1.data) && e.1 != dir)

/-- Split a character list on a separator (every separator opens a new
piece, like `str::split`). -/
def listSplit (sep : Char) : List Char → List (List Char)
  | [] => [[]]
  | c :: rest =>
    let r := listSplit sep rest
    if c = sep then [] :: r
    else
      match r with
      | [] => [[c]]
      | h :: t => (c :: h) :: t

/-- Join pieces with a separator (inverse of `listSplit`). -/
def listJoinSep (sep : Char) : List (List Char) → List Char
  | [] => []
  | [x] => x
  | x :: rest => x ++ sep :: listJoinSep sep rest

/-- `Path::with_extension` on the final component: replace the part after
the last dot of the file name (or append when there is none). -/
def withExtension (p : String) (ext : String) : String :=
  match (listSplit '/' p.data).reverse with
  | [] => String.mk (p.data ++ '.' :: ext.data)
  | file :: revDirs =>
    let parts := listSplit '.' file
    let stem :=
      match parts with
      | [] => file
      | [single] => single
      | _ => listJoinSep '.' parts.dropLast
    String.mk (listJoinSep '/' ((stem ++ '.' :: ext.data) :: revDirs).reverse)

/-- Failure modes injected by the environment into `move_app_bundle`:
whether the initial unprivileged backup rename is refused with
`PermissionDenied`, whether the later rename of the replacement into the
install path fails (the simulated mid-swap fault), and whether the elevated
AppleScript swap succeeds. -/
structure SwapOracle where
  probePermissionDenied : Bool
  swapRenameFails : Bool
  swapScriptOk : Bool
deriving DecidableEq, Repr

/-- `Updater::move_app_bundle` (`macos.rs`, lines 100-182) over the abstract
filesystem.  `app_path` is the extracted replacement bundle and
`tmp_backup_dir` the fresh temporary backup directory created at entry.
The probe rename of the install path into the temp backup dir either
succeeds (moving the installed content there), fails with `PermissionDenied`
(switching to the elevated AppleScript path, modelled all-or-nothing via the
oracle), or fails because the source is missing.  On the unprivileged path
the source then renames the install path to `extract_path.with_extension
("backup")` if it still exists, renames the replacement into place
(failure injectable via the oracle), on failure best-effort renames the
backup back when it exists, and on success best-effort removes the backup.
The temp backup dir is dropped (deleted) on every exit. -/
def move_app_bundle (u : Updater) (fs0 : FS) (app_path tmp_backup_dir : String)
    (o : SwapOracle) : Except Error Unit × FS :=
  let probeDst := tmp_backup_dir ++ "/current_app"
  if o.probePermissionDenied then
    let backup_path := u.extract_path ++ ".backup"
    if o.swapScriptOk then
      let fs1 := (fsRename fs0 u.extract_path backup_path).getD fs0
      let fs2 := (fsRename fs1 app_path u.extract_path).getD fs1
      let fs3 := fsRemove fs2 backup_path
      (.ok (), fsDropDir fs3 tmp_backup_dir)
    else
      let fs1 :=
        if fsHas fs0 backup_path then
          (fsRename (fsRemove fs0 u.extract_path) backup_path u.extract_path).getD fs0
        else fs0
      (.error (.Io .permissionDenied), fsDropDir fs1 tmp_backup_dir)
  else
    match fsRename fs0 u.extract_path probeDst with
    | none => (.error (.Io .notFound), fsDropDir fs0 tmp_backup_dir)
    | some fs1 =>
      let backup_path := withExtension u.extract_path "backup"
      let step1 : Option FS :=
        if fsHas fs1 u.extract_path then fsRename fs1 u.extract_path backup_path
        else some fs1
      match step1 with
      | none => (.error (.Io .other), fsDropDir fs1 tmp_backup_dir)
      | some fs2 =>
        let step2 : Option FS :=
          if o.swapRenameFails then none else fsRename fs2 app_path u.extract_path
        match step2 with
        | none =>
          let fs3 :=
            if fsHas fs2 backup_path then
              (fsRename fs2 backup_path u.extract_path).getD fs2
            else fs2
          (.error (.Io .other), fsDropDir fs3 tmp_backup_dir)
        | some fs3 =>
          let fs4 := if fsHas fs3 backup_path then fsRemove fs3 backup_path else fs3
          (.ok (), fsDropDir fs4 tmp_backup_dir)

/-- How one call to the macOS `relaunch_inner` ends: the process terminates
with an exit code, or control returns to the caller with the spawn error. -/
inductive RelaunchResult where
  | exited (code : Nat)
  | err
deriving DecidableEq, Repr

/-- One recorded `Command` spawn. -/
structure SpawnCall where
  cmd : String
  args : List String
deriving DecidableEq, Repr

/-- `Updater::relaunch_inner` (`macos.rs`, lines 249-258): spawn
`open -n <extract_path>`; when the spawn fails the error propagates to the
caller, otherwise the current process exits with code 0.  Returns the
outcome together with the attempted spawn. -/
def relaunch_inner (u : Updater) (spawnOk : Bool) : RelaunchResult × SpawnCall :=
  let call : SpawnCall := { cmd := "open", args := ["-n", u.extract_path] }
  if spawnOk then (.exited 0, call) else (.err, call)

end MacOS

/-! Concrete sample data used to instantiate theorems. -/

/-- A macOS/x86_64 system. -/
def sampleSysMac : SystemInfo := { os := .Macos, arch := .X86_64 }

/-- A classified asset matching macOS/x86_64 with the app-zip bundle kind. -/
def sampleMacAsset : GitHubAsset :=
  { name := "app-1.1.0-x86_64-apple-darwin.app.zip"
    os := .Macos
    arch := .X86_64
    browser_download_url := "https://example.com/mac"
    size := 1048576
    bundle_type := .MacOSAppZip }

/-- A classified asset matching Windows/x86_64 with the setup-exe bundle
kind (does not match a macOS system). -/
def sampleWinAsset : GitHubAsset :=
  { name := "app-1.1.0-x86_64-windows-setup.exe"
    os := .Windows
    arch := .X86_64
    browser_download_url := "https://example.com/winx"
    size := 7
    bundle_type := .WindowsSetUp }

/-- A 1.1.0 release shipping the Windows asset before the macOS asset. -/
def sampleRelMac : GitHubRelease :=
  { version := { major := 1, minor := 1, patch := 0, pre := [] }
    name := none
    note := none
    published_at := none
    assets := [sampleWinAsset, sampleMacAsset] }

/-- A 1.1.0 release with an empty asset list. -/
def relNoAssets : GitHubRelease :=
  { version := { major := 1, minor := 1, patch := 0, pre := [] }
    name := none
    note := none
    published_at := none
    assets := [] }

/-- An updater at current version 1.0.0 with nothing resolved yet. -/
def sampleU : Updater :=
  { app_name := "app"
    current_version := { major := 1, minor := 0, patch := 0, pre := [] }
    proxy := none
    github_client := { owner := "owner", repo := "repo" }
    headers := []
    extract_path := "/Applications/App.app"
    timeout := none
    installer_args := []
    current_exe_args := []
    latest_release := none
    proper_asset := none }

/-- The sample updater after a successful check (asset resolved). -/
def sampleUAsset : Updater :=
  { sampleU with latest_release := some sampleRelMac, proper_asset := some sampleMacAsset }

/-- The sole asset of the resolution-failure scenario: a Linux tarball. -/
def linuxOnlyRaw : RawAsset :=
  { name := "app-1.0.0-linux-x86_64.tar.gz"
    browser_download_url := "https://example.com/linux"
    size := 3 }

/-- Initial filesystem of the rollback scenario: the installed bundle holds
content 1 (the spec's C1) and the staged replacement holds content 2. -/
def rollbackFS : MacOS.FS :=
  [("/Applications/App.app", 1), ("/tmp/new/App.app", 2)]

/-- The mid-swap fault of the rollback scenario: the probe rename is allowed
and the replacement rename fails. -/
def rollbackOracle : MacOS.SwapOracle :=
  { probePermissionDenied := false, swapRenameFails := true, swapScriptOk := false }

/-- Windows handoff state after a successful install: staged path recorded,
keeper slot holding handle 3. -/
def winSlots : Windows.Slots :=
  { updater_file := some "C:/temp/app-1.1.0-installer.exe", temp_file_keeper := some 3 }

/-! Helper lemmas. -/

/-- A successful `find?` splits the list at the first satisfying element. -/
theorem find?_first_decomp {α : Type} (p : α → Bool) (l : List α) (a : α)
    (h : l.find? p = some a) :
    ∃ l₁ l₂, l = l₁ ++ a :: l₂ ∧ p a = true ∧ ∀ b ∈ l₁, p b = false := by
  induction l with
  | nil => simp [List.find?] at h
  | cons x xs ih =>
    cases hx : p x with
    | true =>
      rw [List.find?_cons_of_pos _ hx] at h
      cases h
      exact ⟨[], xs, rfl, hx, by simp⟩
    | false =>
      rw [List.find?_cons_of_neg _ (by simp [hx])] at h
      obtain ⟨l₁, l₂, heq, hpa, hl₁⟩ := ih h
      refine ⟨x :: l₁, l₂, by simp [heq], hpa, ?_⟩
      intro b hb
      rcases List.mem_cons.mp hb with hb | hb
      · subst hb; exact hx
      · exact hl₁ b hb

/-- The streaming fold returns the concatenated chunks and the per-chunk
length trace, in order. -/
theorem downloadLoop_eq (chunks : List (List Nat)) :
    downloadLoop chunks = (chunks.flatten, chunks.map List.length) := by
  have h : ∀ (cs : List (List Nat)) (b t : List Nat),
      cs.foldl (fun acc c => (acc.1 ++ c, acc.2 ++ [c.length])) (b, t)
        = (b ++ cs.flatten, t ++ cs.map List.length) := by
    intro cs
    induction cs with
    | nil => intro b t; simp
    | cons c cs ih => intro b t; simp [List.foldl, ih]
  simpa [downloadLoop] using h chunks [] []

/-! Claim theorems. -/

/-- C3: for a release whose assets all classified successfully,
`find_proper_asset` scans the asset list in its given order and returns the
first asset whose classified OS, architecture and bundle kind equal the
system's OS, architecture and the platform's required kind (setup executable
on Windows, app-bundle zip archive on macOS); when no asset matches it fails
with `AssetNotFound`, and conversely. -/
theorem find_proper_asset_first_match (sys : SystemInfo) (r : GitHubRelease) :
    (∀ a, r.find_proper_asset sys = .ok a →
        ∃ l₁ l₂, r.assets = l₁ ++ a :: l₂ ∧ assetMatches sys a = true ∧
          ∀ b ∈ l₁, assetMatches sys b = false)
  ∧ (r.find_proper_asset sys = .error .AssetNotFound ↔
        ∀ a ∈ r.assets, assetMatches sys a = false)
  ∧ requiredBundleType .Windows = .WindowsSetUp
  ∧ requiredBundleType .Macos = .MacOSAppZip := by
  refine ⟨?_, ?_, rfl, rfl⟩
  · intro a ha
    unfold GitHubRelease.find_proper_asset at ha
    cases hf : r.assets.find? (fun a => assetMatches sys a) with
    | none => rw [hf] at ha; cases ha
    | some b =>
      rw [hf] at ha
      cases ha
      exact find?_first_decomp _ _ _ hf
  · unfold GitHubRelease.find_proper_asset
    cases hf : r.assets.find? (fun a => assetMatches sys a) with
    | none =>
      simp only [Except.error.injEq, true_iff]
      intro a ha
      have := List.find?_eq_none.mp hf a ha
      simpa using this
    | some b =>
      constructor
      · intro h; cases h
      · intro hall
        have hb := List.find?_some hf
        have hmem := List.mem_of_find?_eq_some hf
        rw [hall b hmem] at hb
        cases hb

/-- Witness for C3 at a concrete release: on a macOS/x86_64 system, the
release shipping a Windows setup asset before a macOS app-zip asset
resolves to the macOS asset, the skipped earlier asset failing the match. -/
theorem find_proper_asset_first_match_witness :
    ∃ l₁ l₂, sampleRelMac.assets = l₁ ++ sampleMacAsset :: l₂ ∧
      assetMatches sampleSysMac sampleMacAsset = true ∧
      ∀ b ∈ l₁, assetMatches sampleSysMac b = false :=
  (find_proper_asset_first_match sampleSysMac sampleRelMac).1 sampleMacAsset (by decide)

/-- C4: with a resolved asset, `download` rejects any non-success HTTP
status with a `Network` error carrying that status; on a success status it
reports each received chunk's length to `on_chunk` once, in arrival order,
and returns the byte-for-byte concatenation of the chunks, accepting any
content (no integrity check constrains the bytes). -/
theorem download_streams_and_concatenates (u : Updater) (a : GitHubAsset)
    (resp : HttpResponse) (h : u.proper_asset = some a) :
    (statusIsSuccess resp.status = false →
      u.download resp =
        { result := .error (.Network
            ("Download request failed with status: " ++ toString resp.status))
          requested := true
          chunkCalls := [] })
  ∧ (statusIsSuccess resp.status = true →
      u.download resp =
        { result := .ok resp.chunks.flatten
          requested := true
          chunkCalls := resp.chunks.map List.length }) := by
  unfold Updater.download
  rw [h]
  constructor
  · intro hs; simp [hs]
  · intro hs; simp [hs, downloadLoop_eq]

/-- Witness for C4 at a concrete response: status 200 with chunks
`[[1,2],[3]]` yields buffer `[1,2,3]` and the trace `[2,1]` of per-chunk
lengths. -/
theorem download_streams_and_concatenates_witness :
    sampleUAsset.download { status := 200, chunks := [[1, 2], [3]] } =
      { result := .ok [1, 2, 3], requested := true, chunkCalls := [2, 1] } := by
  have h := (download_streams_and_concatenates sampleUAsset sampleMacAsset
    { status := 200, chunks := [[1, 2], [3]] } rfl).2 (by decide)
  simpa using h

/-- C5: staging the installer verifies the written file exists and that its
on-disk length equals the input buffer's length exactly; a missing file or
a length mismatch (e.g. a short write) fails with `InvalidUpdaterFormat`,
and only an exact-length write is accepted. -/
theorem write_to_temp_exact_length (bytes : List Nat) (disk : Option (List Nat)) :
    (disk = none → write_to_temp bytes disk = .error .InvalidUpdaterFormat)
  ∧ (∀ w, disk = some w → w.length ≠ bytes.length →
      write_to_temp bytes disk = .error .InvalidUpdaterFormat)
  ∧ (∀ w, disk = some w → w.length = bytes.length →
      write_to_temp bytes disk = .ok w) := by
  refine ⟨?_, ?_, ?_⟩
  · intro h; simp [write_to_temp, h]
  · intro w h hne; simp [write_to_temp, h, hne]
  · intro w h he; simp [write_to_temp, h, he]

/-- Witness for C5 at a concrete short write: a 3-byte buffer whose staged
file holds only 2 bytes is rejected as `InvalidUpdaterFormat`. -/
theorem write_to_temp_exact_length_witness :
    write_to_temp [1, 2, 3] (some [1, 2]) = .error .InvalidUpdaterFormat :=
  (write_to_temp_exact_length [1, 2, 3] (some [1, 2])).2.1 [1, 2] rfl (by decide)

/-- C10: with no resolved asset, `download` fails with `AssetNotFound`
uniformly in the response — no network request is issued (the `requested`
flag stays false) and no progress callback fires; the receiver is taken
immutably by the embedding, so it is unchanged. -/
theorem download_without_asset_fails_early (u : Updater) (resp : HttpResponse)
    (h : u.proper_asset = none) :
    u.download resp =
      { result := .error .AssetNotFound, requested := false, chunkCalls := [] } := by
  unfold Updater.download
  rw [h]

/-- Witness for C10: the unresolved sample updater fails with
`AssetNotFound` without requesting, even against a healthy response. -/
theorem download_without_asset_fails_early_witness :
    sampleU.download { status := 200, chunks := [[9]] } =
      { result := .error .AssetNotFound, requested := false, chunkCalls := [] } :=
  download_without_asset_fails_early sampleU { status := 200, chunks := [[9]] } rfl


/-- The disk contents of the Windows relaunch scenarios: the staged
installer is present. -/
def winExisting : List String := ["C:/temp/app-1.1.0-installer.exe"]

/-- C6 (code bug at result 1223): with the staged installer recorded and
present, relaunch maps results 2, 5, 32 to the distinct kinds the code
designates for file-not-found (`InvalidUpdaterFormat`, per the
`ERROR_FILE_NOT_FOUND` comment), insufficient privileges and file-in-use,
and any other code of at most 32 (e.g. 10) to `InstallerExecutionFailed`
carrying it; but result 1223 does NOT map to the user-cancelled-elevation
error: the `1223` match arm sits inside the `result <= 32` branch and is
unreachable, so 1223 takes the greater-than-32 success path and the process
exits 0. -/
theorem relaunch_result_mapping_eval :
    (Windows.relaunch_inner winSlots winExisting 1223).1 = .exited 0
  ∧ (Windows.relaunch_inner winSlots winExisting 1223).1 ≠ .err .UserCancelledElevation
  ∧ (Windows.relaunch_inner winSlots winExisting 2).1 = .err .InvalidUpdaterFormat
  ∧ (Windows.relaunch_inner winSlots winExisting 5).1 = .err .InsufficientPrivileges
  ∧ (Windows.relaunch_inner winSlots winExisting 32).1 = .err .FileInUse
  ∧ (Windows.relaunch_inner winSlots winExisting 10).1 = .err (.InstallerExecutionFailed 10)
  ∧ (Windows.relaunch_inner winSlots winExisting 40).1 = .exited 0 := by decide

/-- C8 counterexample: with the keeper slot holding handle 3 and the staged
file missing from disk, relaunch returns a failure while the slot still
holds handle 3 — so the slot is not cleared on every exit path. -/
theorem relaunch_keeper_leak :
    (Windows.relaunch_inner winSlots [] 9000).1 = .err .InvalidUpdaterFormat
  ∧ ((Windows.relaunch_inner winSlots [] 9000).2).temp_file_keeper = some 3 := by
  decide

/-- C8 (amended): the keeper slot is cleared on every exit path that reaches
the elevated-execution call (every mapped failure and the success path);
on the two early validation failures — no staged path recorded, or staged
file missing from disk — relaunch returns leaving the handoff state
untouched. -/
theorem relaunch_keeper_clearing (s : Windows.Slots) (ex : List String) (r : Int) :
    (∀ f, s.updater_file = some f → ex.contains f = true →
      ((Windows.relaunch_inner s ex r).2).temp_file_keeper = none)
  ∧ (s.updater_file = none → (Windows.relaunch_inner s ex r).2 = s)
  ∧ (∀ f, s.updater_file = some f → ex.contains f = false →
      (Windows.relaunch_inner s ex r).2 = s) := by
  refine ⟨?_, ?_, ?_⟩
  · intro f h1 h2
    have hmem : f ∈ ex := by simpa using h2
    simp only [Windows.relaunch_inner, h1, h2]
    split_ifs <;> simp_all
  · intro h1
    simp [Windows.relaunch_inner, h1]
  · intro f h1 h2
    have hmem : ¬ f ∈ ex := by simpa using h2
    simp [Windows.relaunch_inner, h1, hmem]

/-- Witness for C8 (amended) at concrete handoff state: after a successful
elevated launch the keeper slot is empty. -/
theorem relaunch_keeper_clearing_witness :
    ((Windows.relaunch_inner winSlots winExisting 40).2).temp_file_keeper = none :=
  (relaunch_keeper_clearing winSlots winExisting 40).1
    "C:/temp/app-1.1.0-installer.exe" rfl (by decide)

/-- C2 counterexample: with current version 1.0.0 and a fetched 1.1.0
release carrying no matching asset, the latest version is strictly greater
yet `check` neither returns a configured updater nor the no-update outcome —
it fails with `AssetNotFound`. -/
theorem check_counterexample_missing_asset :
    versionGt relNoAssets.version sampleU.current_version = true
  ∧ sampleU.check sampleSysMac relNoAssets = .error .AssetNotFound
  ∧ (¬ ∃ u', sampleU.check sampleSysMac relNoAssets = .ok (some u'))
  ∧ sampleU.check sampleSysMac relNoAssets ≠ .ok none := by
  refine ⟨by decide, by decide, ?_, by decide⟩
  rintro ⟨u', h⟩
  have e : sampleU.check sampleSysMac relNoAssets = .error .AssetNotFound := by decide
  rw [e] at h
  exact Except.noConfusion h

/-- C2 (amended): `check` returns the no-update outcome (`none`) exactly
when the fetched release's semantic version is not strictly greater than the
current one; when it is strictly greater and asset resolution succeeds,
`check` returns a new updater equal to the receiver except for the two
resolved fields; when it is strictly greater but resolution fails, `check`
propagates the resolution error (`AssetNotFound`).  The receiver is taken
immutably by the embedding, so it is unchanged in every case. -/
theorem check_amended_characterization (sys : SystemInfo) (u : Updater)
    (latest : GitHubRelease) :
    (u.check sys latest = .ok none ↔
        versionGt latest.version u.current_version = false)
  ∧ (∀ a, versionGt latest.version u.current_version = true →
      latest.find_proper_asset sys = .ok a →
      u.check sys latest =
        .ok (some { u with latest_release := some latest, proper_asset := some a }))
  ∧ (∀ e, versionGt latest.version u.current_version = true →
      latest.find_proper_asset sys = .error e →
      u.check sys latest = .error e) := by
  refine ⟨?_, ?_, ?_⟩
  · unfold Updater.check
    cases hv : versionGt latest.version u.current_version with
    | false => simp
    | true =>
      simp only [if_true]
      cases hf : latest.find_proper_asset sys <;> simp
  · intro a hv hf
    simp [Updater.check, hv, hf]
  · intro e hv hf
    simp [Updater.check, hv, hf]

/-- Witness for C2 (amended) at the spec's update-detection inputs: current
1.0.0 against the fetched 1.1.0 release resolves the macOS asset (size
1048576) and returns the configured updater. -/
theorem check_amended_characterization_witness :
    sampleU.check sampleSysMac sampleRelMac = .ok (some sampleUAsset) := by
  have h := (check_amended_characterization sampleSysMac sampleU sampleRelMac).2.1
    sampleMacAsset (by decide) (by decide)
  simpa [sampleUAsset] using h

/-- C1 (code bug): on the unprivileged macOS swap path with install content
1 and staged replacement content 2, when the initial backup rename succeeds
and the replacement rename then fails, the original swap failure is
reported, but the install path is NOT restored: the probe rename already
moved the installed bundle into the temporary backup directory, so the
`backup_path` checked by the restore step never exists, and the temp
directory's drop deletes the old content — the final filesystem holds only
the staged replacement, with the install path missing entirely. -/
theorem move_app_bundle_rollback_lost :
    MacOS.move_app_bundle sampleU rollbackFS "/tmp/new/App.app" "/tmp/backupdir"
        rollbackOracle
      = (.error (.Io .other), [("/tmp/new/App.app", 2)])
  ∧ MacOS.fsLookup
      (MacOS.move_app_bundle sampleU rollbackFS "/tmp/new/App.app" "/tmp/backupdir"
        rollbackOracle).2 "/Applications/App.app" = none
  ∧ MacOS.fsHas
      (MacOS.move_app_bundle sampleU rollbackFS "/tmp/new/App.app" "/tmp/backupdir"
        rollbackOracle).2 (MacOS.withExtension "/Applications/App.app" "backup")
      = false := by decide

/-- C7 counterexample: classifying the release whose only asset is the
Linux tarball does not produce `AssetNotFound`. -/
theorem linux_asset_not_assetNotFound :
    get_assets [linuxOnlyRaw] ≠ .error Error.AssetNotFound := by decide

/-- C7 (amended): a release whose only asset is
"app-1.0.0-linux-x86_64.tar.gz" fails during eager classification with
`TargetNotFound "macos or windows"`, aborting release conversion before any
target-specific resolution runs — so resolving for macOS and Windows
targets alike surfaces that classification error, not `AssetNotFound`. -/
theorem linux_asset_yields_target_not_found :
    get_assets [linuxOnlyRaw] = .error (.TargetNotFound "macos or windows") := by
  decide

/-- C9 counterexample: there is no execution of the macOS relaunch in which
the new binary was started (the spawn succeeded) and control returns to the
caller — every successful spawn is followed by process exit 0. -/
theorem macos_relaunch_no_return_after_spawn :
    ¬ ∃ (u : Updater) (b : Bool), b = true ∧
        (MacOS.relaunch_inner u b).1 ≠ MacOS.RelaunchResult.exited 0 := by
  rintro ⟨u, b, hb, hne⟩
  subst hb
  exact hne rfl

/-- C9 (amended): macOS relaunch spawns `open -n <extract_path>` (starting
the installed app as an independent process); a successful spawn is always
followed by terminating the calling process with exit code 0, and control
returns to the caller only when the spawn itself fails. -/
theorem macos_relaunch_exits_after_spawn (u : Updater) (b : Bool) :
    (MacOS.relaunch_inner u b).2 = { cmd := "open", args := ["-n", u.extract_path] }
  ∧ (b = true → (MacOS.relaunch_inner u b).1 = .exited 0)
  ∧ (b = false → (MacOS.relaunch_inner u b).1 = .err) := by
  refine ⟨?_, ?_, ?_⟩
  · cases b <;> rfl
  · intro h; subst h; rfl
  · intro h; subst h; rfl

/-- Witness for C9 (amended): on the sample updater a successful spawn ends
in process exit 0. -/
theorem macos_relaunch_exits_after_spawn_witness :
    (MacOS.relaunch_inner sampleU true).1 = MacOS.RelaunchResult.exited 0 :=
  (macos_relaunch_exits_after_spawn sampleU true).2.1 rfl
